/-
Verification of the feed-aggregation pipeline: collectors, enrichment,
and the SQLite-backed store (data_collector.py, claude_processor.py,
data_manager.py, utils.py).

The Python code is shallowly embedded: item dicts become structures with
Option-typed fields (none models an absent key / JSON null), the items and
source_metadata tables become lists of rows, and the SQL statements of
data_manager.py are translated to pure functions with the same semantics
(upsert keyed by id, UNIQUE(url) constraint, LIKE-based category filter that
is case-insensitive for ASCII as in SQLite, ORDER BY importance_score DESC,
published DESC with NULLs last).  Network and LLM calls are modelled by
explicit oracle parameters giving the outcome of each remote call.
-/
import Mathlib

set_option maxHeartbeats 1000000

namespace Feed

/-! ### utils.truncate_text

Python (utils.py, lines 55-59):
  if not text or len(text) <= max_length: return text
  return text[:max_length] + "..."
For a `str` argument, `not text` is true exactly for the empty string;
`text[:n]` is the first `n` characters. -/

def truncate_text (text : String) (max_length : Nat := 200) : String :=
  if text = "" ∨ text.length ≤ max_length then text
  else String.mk (text.data.take max_length) ++ "..."

/-! ### Item dicts

The collectors and the processor pass around Python dicts.  A field of type
`Option _` models a key that may be absent (or hold JSON null); `none` is an
absent key.  Collector-produced items always carry an `id` string, so `id`
is not optional.  `bookmarked`/`is_read` are stored as 0/1 integers in the
code and modelled as `Bool`. -/

structure PItem where
  id : String := ""
  title : Option String := none
  url : Option String := none
  source : Option String := none
  type : Option String := none
  description : Option String := none
  abstract : Option String := none
  summary : Option String := none
  authors : Option String := none
  published : Option String := none
  thumbnail : Option String := none
  channel : Option String := none
  categories : Option (List String) := none
  keywords : Option (List String) := none
  importance_score : Option Int := none
  bookmarked : Bool := false
  is_read : Bool := false
  full_text_content : Option String := none
  full_content_for_analysis : Option String := none
  deriving DecidableEq, Repr

/-- Python truthiness of an optional string: `None` and `""` are falsy. -/
def truthyS : Option String → Bool
  | none => false
  | some s => s != ""

/-- Python `a or b` where `a` is an optional string and `b` a string:
falls through to `b` when `a` is `None` or `""`. -/
def pyOrS (a : Option String) (b : String) : String :=
  match a with
  | none => b
  | some s => if s = "" then b else s

/-- claude_processor.py, categorize_content line 78 and
_set_default_analysis line 165:
`item.get('full_content_for_analysis') or item.get('description') or
 item.get('abstract', '')`. -/
def contentOf (it : PItem) : String :=
  pyOrS it.full_content_for_analysis (pyOrS it.description (it.abstract.getD ""))

/-! ### claude_processor.ClaudeProcessor

Remote LLM calls are modelled by oracles.  For `categorize_content`, the
oracle gives either the parsed JSON analysis extracted from the response
(`parsed`) or one of the failure modes of lines 132-157: no JSON object
found in the response, a JSON decode error, or one of the caught transport
exceptions.  For `generate_summary`, the oracle is `some resp` when the API
call returns response text `resp` (already stripped, as at line 52) and
`none` when the call fails with any of the caught exceptions (lines 53-65),
in which case the code falls back to `truncate_text`. -/

structure Analysis where
  categories : Option (List String) := none
  importance_score : Option Int := none
  keywords : Option (List String) := none
  suggested_short_summary : Option String := none
  deriving DecidableEq, Repr

inductive EnrichOutcome where
  | parsed (a : Analysis)
  | noJsonFound
  | jsonDecodeError
  | connectionError
  | rateLimitError
  | statusError
  | otherError
  deriving DecidableEq, Repr

/-- The outcome is a transport error, rate-limit signal or parse failure. -/
def EnrichOutcome.failed : EnrichOutcome → Bool
  | .parsed _ => false
  | _ => true

/-- claude_processor.py lines 20-65.  Empty text returns "" (line 31-32);
a successful API call returns the stripped response cut to `max_length`
(line 52); every caught exception returns `truncate_text text max_length`. -/
def generate_summary (so : Option String) (text : String) (max_length : Nat) :
    String :=
  if text = "" then ""
  else
    match so with
    | some resp => String.mk (resp.data.take max_length)
    | none => truncate_text text max_length

/-- claude_processor.py lines 159-166 (`_set_default_analysis`): each field
defaults only when the item does not already carry it; the summary is set
only when absent or falsy, via another `generate_summary` call. -/
def set_default_analysis (so : Option String) (it : PItem) : PItem :=
  { it with
    categories := some (it.categories.getD ["Uncategorized"])
    importance_score := some (it.importance_score.getD 3)
    keywords := some (it.keywords.getD [])
    summary :=
      if truthyS it.summary then it.summary
      else some (generate_summary so (contentOf it) 150) }

/-- claude_processor.py lines 67-157 (`categorize_content`).  On a parsed
response the analysis fields are taken with `.get` defaults (lines 122-124);
the suggested summary is used when truthy, otherwise an existing truthy
summary is kept, otherwise one is generated (lines 126-130).  Every failure
branch applies `_set_default_analysis` and returns the item. -/
def categorize_content (o : EnrichOutcome) (so : Option String) (it : PItem) :
    PItem :=
  match o with
  | .parsed a =>
      let it1 := { it with
        categories := some (a.categories.getD ["Uncategorized"])
        importance_score := some (a.importance_score.getD 5)
        keywords := some (a.keywords.getD []) }
      if truthyS a.suggested_short_summary then
        { it1 with summary := a.suggested_short_summary }
      else if truthyS it1.summary then it1
      else { it1 with summary := some (generate_summary so (contentOf it) 150) }
  | _ => set_default_analysis so it

/-- claude_processor.py line 184: in the no-credential path the text to
summarize is `item.get('description', item.get('abstract', ''))` — the
description is used whenever the key is present, else the abstract. -/
def noKeyContent (it : PItem) : String :=
  match it.description with
  | some d => d
  | none => it.abstract.getD ""

/-- claude_processor.py lines 182-189: per-item fallback applied to the
whole batch when no API key is configured. -/
def noKeyProcess (it : PItem) : PItem :=
  { it with
    summary := some (truncate_text (noKeyContent it) 150)
    categories := some ["Uncategorized"]
    importance_score := some 5
    keywords := some [] }

/-- claude_processor.py lines 196-198: the content prepared for analysis,
`full_text_content or description or abstract-with-default ""`. -/
def itemContent (it : PItem) : String :=
  pyOrS it.full_text_content (pyOrS it.description (it.abstract.getD ""))

/-- The item with `full_content_for_analysis` set (line 199). -/
def prepare (it : PItem) : PItem :=
  { it with full_content_for_analysis := some (itemContent it) }

/-- claude_processor.py lines 192-208: one iteration of the with-key batch
loop — prepare `full_content_for_analysis`, categorize, then ensure a
summary exists (lines 205-206). -/
def enrichOne (o : EnrichOutcome) (so : Option String) (it : PItem) : PItem :=
  let it2 := categorize_content o so (prepare it)
  if truthyS it2.summary then it2
  else { it2 with summary := some (generate_summary so (itemContent it) 150) }

/-- The with-key loop of `batch_process`, with `n` the index of the next
item (each item consumes its own remote-call outcomes `o n`, `so n`). -/
def batchGo (o : Nat → EnrichOutcome) (so : Nat → Option String) :
    Nat → List PItem → List PItem
  | _, [] => []
  | n, it :: rest => enrichOne (o n) (so n) it :: batchGo o so (n + 1) rest

/-- claude_processor.py lines 168-210 (`batch_process`): if the API key is
absent or empty the deterministic fallback is applied to every item;
otherwise each item goes through `enrichOne`. -/
def batch_process (api_key : Option String) (o : Nat → EnrichOutcome)
    (so : Nat → Option String) (items : List PItem) : List PItem :=
  if truthyS api_key then batchGo o so 0 items
  else items.map noKeyProcess

/-! ### The items table

utils.initialize_db (utils.py lines 88-111) creates the `items` table with
`id TEXT PRIMARY KEY` and `url TEXT UNIQUE`.  A stored row is modelled as
`Row`; the table as a `List Row`.  Nullable TEXT columns are
`Option String`.  `categories` and `keywords` hold JSON-serialized lists
(json.dumps at data_manager.py line 29) and json.loads on read inverts
json.dumps, so the row keeps them as lists; `raw_data` holds json.dumps of
the whole processed item, kept as the item itself since serialization is
injective. -/

structure Row where
  id : String
  title : Option String := none
  url : Option String := none
  source : Option String := none
  source_type : Option String := none
  content_type : Option String := none
  description : Option String := none
  summary : Option String := none
  authors : Option String := none
  published : Option String := none
  thumbnail : Option String := none
  categories : List String := []
  keywords : List String := []
  importance_score : Int := 5
  channel : Option String := none
  raw_data : PItem := {}
  processed_at : String := ""
  bookmarked : Bool := false
  is_read : Bool := false
  last_fetched_at : String := ""
  deriving DecidableEq, Repr

/-- The `items` table never holds two rows with the same id. -/
def uniqueIds (st : List Row) : Prop :=
  st.Pairwise fun a b => a.id ≠ b.id

/-- Python `a or b` on two optional strings
(`item.get('description') or item.get('abstract')`,
data_manager.py line 26). -/
def pyOrOpt (a b : Option String) : Option String :=
  match a with
  | none => b
  | some s => if s = "" then b else some s

/-- data_manager.py lines 68-70: fill in the content type determined from
the source key when the item does not carry one. -/
def fillType (it : PItem) (content_type_val : String) : PItem :=
  if it.type = none ∧ content_type_val ≠ "" then
    { it with type := some content_type_val }
  else it

/-- data_manager.py `_item_to_db_format` (lines 21-34): the tuple bound to
the INSERT, one field per column.  `processed_at` and `last_fetched_at` are
both set to the current timestamp `now`. -/
def rowOfItem (it : PItem) (source_key content_type_val now : String) : Row :=
  { id := it.id
    title := it.title
    url := it.url
    source := it.source
    source_type := some source_key
    content_type := some content_type_val
    description := pyOrOpt it.description it.abstract
    summary := it.summary
    authors := it.authors
    published := it.published
    thumbnail := it.thumbnail
    categories := it.categories.getD []
    keywords := it.keywords.getD []
    importance_score := it.importance_score.getD 5
    channel := it.channel
    raw_data := it
    processed_at := now
    bookmarked := it.bookmarked
    is_read := it.is_read
    last_fetched_at := now }

/-- The UNIQUE(url) constraint of the items table: writing row `r` violates
it when `r.url` is non-NULL and equals the url of a row with a different
id (NULLs never conflict in SQLite). -/
def urlConflict (st : List Row) (r : Row) : Bool :=
  match r.url with
  | none => false
  | some u => st.any fun q => (q.id != r.id) && (q.url == some u)

/-- data_manager.py lines 73-99: INSERT ... ON CONFLICT(id) DO UPDATE SET.
The DO UPDATE branch sets every source-derived column (lines 78-94) but not
`bookmarked`/`is_read`.  An IntegrityError — the UNIQUE(url) violation —
is caught at lines 96-97 and the offending item is skipped. -/
def upsertRow (st : List Row) (r : Row) : List Row :=
  if urlConflict st r then st
  else if st.any fun q => q.id == r.id then
    st.map fun q =>
      if q.id == r.id then { r with bookmarked := q.bookmarked, is_read := q.is_read }
      else q
  else st ++ [r]

/-- One iteration of the insert loop of refresh_data (lines 67-99): fill in
the content type, convert to a row (`item['type']` is the content type
passed to `_item_to_db_format`), and upsert. -/
def upsertItem (st : List Row) (it : PItem) (source_key content_type_val now : String) :
    List Row :=
  let it2 := fillType it content_type_val
  upsertRow st (rowOfItem it2 source_key (it2.type.getD "") now)

/-- data_manager.py lines 226-250 (`update_item_flags`): update only the
supplied flags on the row with the given id; return the new table and the
`rowcount > 0` result.  With no flag supplied, return False without
touching the table (lines 240-242). -/
def update_item_flags (st : List Row) (item_id : String)
    (bookmarked is_read : Option Bool) : List Row × Bool :=
  if bookmarked = none ∧ is_read = none then (st, false)
  else
    (st.map fun q =>
        if q.id == item_id then
          { q with bookmarked := bookmarked.getD q.bookmarked
                   is_read := is_read.getD q.is_read }
        else q,
      st.any fun q => q.id == item_id)

/-! ### get_data_by_type: filters, LIKE matching and ordering

data_manager.py lines 118-170.  The WHERE clause filters on content_type,
on `importance_score >= ?` when `filters.get("min_importance")` is truthy
(0 and None skip the clause), and on an OR of `categories LIKE '%"topic"%'`
clauses when `filters.get("topics")` is truthy (a nonempty list).  The
`categories` column holds json.dumps of the category list (default
separators, so ", " between elements).  SQLite's LIKE is case-insensitive
for ASCII ('%' = any sequence, '_' = any single character), modelled by
folding both sides with `Char.toLower`, which lowers exactly the ASCII
range.  ORDER BY importance_score DESC, published DESC puts NULLs last
(NULL is smallest in SQLite); LIMIT/OFFSET apply after ordering. -/

/-- SQL LIKE pattern matching over characters; a '%' consumes any (possibly
empty) prefix of the text, i.e. the rest of the pattern must match some
suffix. -/
def likeMatch : List Char → List Char → Bool
  | [], s => s.isEmpty
  | p :: ps, s =>
      if p = '%' then (List.range (s.length + 1)).any fun k => likeMatch ps (s.drop k)
      else
        match s with
        | [] => false
        | c :: s2 => if p = '_' then likeMatch ps s2 else (p == c) && likeMatch ps s2

/-- `pattern LIKE text` as SQLite evaluates it: ASCII-case-insensitive. -/
def likeCI (pat s : String) : Bool :=
  likeMatch (pat.data.map Char.toLower) (s.data.map Char.toLower)

/-- json.dumps escaping of one character (the fragment relevant to the
printable-ASCII category names handled here: quote and backslash gain a
backslash, everything else is itself). -/
def jsonEscChar (c : Char) : List Char :=
  if c = '"' then ['\\', '"']
  else if c = '\\' then ['\\', '\\']
  else [c]

/-- json.dumps of one string, as characters. -/
def jsonStrChars (s : List Char) : List Char :=
  '"' :: s.flatMap jsonEscChar ++ ['"']

/-- The comma-space separated body of a json.dumps list. -/
def jsonListBody : List (List Char) → List Char
  | [] => []
  | [s] => jsonStrChars s
  | s :: rest => jsonStrChars s ++ [',', ' '] ++ jsonListBody rest

/-- json.dumps of a list of strings with the default ", " separator —
the value stored in the categories/keywords columns
(data_manager.py line 29). -/
def jsonEncodeList (xs : List String) : String :=
  String.mk ('[' :: jsonListBody (xs.map String.data) ++ [']'])

/-- The optional filters dict of get_data_by_type. -/
structure Filters where
  min_importance : Option Int := none
  topics : Option (List String) := none
  deriving Repr

/-- The LIKE parameter built at data_manager.py line 146:
`f'%"{topic}"%'`. -/
def topicPattern (t : String) : String := "%\"" ++ t ++ "\"%"

/-- The WHERE clause of get_data_by_type (lines 134-148). -/
def rowMatches (content_type : String) (f : Filters) (r : Row) : Bool :=
  (r.content_type == some content_type) &&
  (match f.min_importance with
   | none => true
   | some v => if v = 0 then true else decide (v ≤ r.importance_score)) &&
  (match f.topics with
   | none => true
   | some ts =>
      if ts.isEmpty then true
      else ts.any fun t => likeCI (topicPattern t) (jsonEncodeList r.categories))

/-- published DESC comparison on a nullable column: NULL (none) is
smallest, so it sorts last under DESC. -/
def pubLeB : Option String → Option String → Bool
  | none, _ => true
  | some _, none => false
  | some a, some b => decide (a ≤ b)

/-- `rowOrd a b`: row `a` may come no later than row `b` under
ORDER BY importance_score DESC, published DESC. -/
def rowOrd (a b : Row) : Prop :=
  b.importance_score < a.importance_score ∨
    (a.importance_score = b.importance_score ∧ pubLeB b.published a.published = true)

instance rowOrdDecidable : DecidableRel rowOrd := fun a b => by
  unfold rowOrd
  infer_instance

instance rowOrdTotal : IsTotal Row rowOrd := by
  constructor
  intro a b
  rcases lt_trichotomy a.importance_score b.importance_score with h | h | h
  · exact Or.inr (Or.inl h)
  · rcases ha : a.published with _ | x <;> rcases hb : b.published with _ | y
    · exact Or.inl (Or.inr ⟨h, by rw [ha, hb]; rfl⟩)
    · exact Or.inr (Or.inr ⟨h.symm, by rw [ha, hb]; rfl⟩)
    · exact Or.inl (Or.inr ⟨h, by rw [ha, hb]; rfl⟩)
    · rcases le_total x y with hxy | hxy
      · exact Or.inr (Or.inr ⟨h.symm, by rw [ha, hb]; simpa [pubLeB] using hxy⟩)
      · exact Or.inl (Or.inr ⟨h, by rw [ha, hb]; simpa [pubLeB] using hxy⟩)
  · exact Or.inl (Or.inl h)

instance rowOrdTrans : IsTrans Row rowOrd := by
  constructor
  intro a b c hab hbc
  rcases hab with h1 | ⟨h1, h1p⟩ <;> rcases hbc with h2 | ⟨h2, h2p⟩
  · exact Or.inl (lt_trans h2 h1)
  · exact Or.inl (h2 ▸ h1)
  · exact Or.inl (h1 ▸ h2)
  · refine Or.inr ⟨h1.trans h2, ?_⟩
    rcases hcp : c.published with _ | z <;> rcases hbp : b.published with _ | y <;>
      rcases hap : a.published with _ | x <;>
      rw [hcp, hbp] at h2p <;> rw [hbp, hap] at h1p <;>
      simp_all [pubLeB]
    exact le_trans h2p h1p

/-- data_manager.py lines 118-170 (`get_data_by_type`): filter, order, then
LIMIT/OFFSET.  json.loads of the categories/keywords columns on read undoes
json.dumps, so rows come back as stored. -/
def get_data_by_type (st : List Row) (content_type : String)
    (limit offset : Nat) (f : Filters) : List Row :=
  (((st.filter (rowMatches content_type f)).insertionSort rowOrd).drop offset).take
    limit

/-- `p` occurs as a contiguous subsequence of `s`. -/
def occursIn (p s : List Char) : Prop := ∃ l r, s = l ++ p ++ r

/-! ### source_metadata and the blog feed collector

utils.initialize_db lines 114-120 create `source_metadata(source_id PRIMARY
KEY, last_successful_fetch, last_item_id)`.  `DBState` is the pair of
tables.  `collect_company_blogs` (data_collector.py lines 308-407) walks
each configured RSS feed newest-first, stops at the stored watermark, and —
still inside collection, before `refresh_data` ever inserts the items —
upserts the new watermark through
`data_manager.update_source_fetch_metadata` (lines 400-402, 285-297).
A feed entry carries the fields the code reads; `summaryText` is the
resolved summary/description/content text (the HTML strip is the identity
on the plain text modelled here), `fullText` the result of the
exception-free `_fetch_full_article_text`, and `contentThumb` the first
embedded image of rich content, when any. -/

structure SourceMeta where
  source_id : String
  last_successful_fetch : Option String := none
  last_item_id : Option String := none
  deriving DecidableEq, Repr

structure DBState where
  items : List Row := []
  meta : List SourceMeta := []
  deriving DecidableEq, Repr

/-- data_manager.py lines 276-283 (`get_source_fetch_metadata`). -/
def getMetaRow (st : DBState) (source_id : String) : Option SourceMeta :=
  st.meta.find? fun m => m.source_id == source_id

/-- data_manager.py lines 285-297 (`update_source_fetch_metadata`):
INSERT ... ON CONFLICT(source_id) DO UPDATE, committed immediately. -/
def putMeta (st : DBState) (source_id fetch_time : String)
    (last_item_id : Option String) : DBState :=
  if st.meta.any fun m => m.source_id == source_id then
    { st with meta := st.meta.map fun m =>
        if m.source_id == source_id then
          { m with last_successful_fetch := some fetch_time
                   last_item_id := last_item_id }
        else m }
  else
    { st with meta := st.meta ++
        [{ source_id := source_id, last_successful_fetch := some fetch_time
           last_item_id := last_item_id }] }

structure FeedEntry where
  id : Option String := none
  link : String := ""
  title : String := ""
  summaryText : String := ""
  published : String := ""
  fullText : Option String := none
  contentThumb : Option String := none
  deriving DecidableEq, Repr

structure FeedCfg where
  name : String
  url : String
  entries : List FeedEntry := []
  deriving DecidableEq, Repr

/-- data_collector.py line 340: `entry.get('id', entry.get('link'))`. -/
def entryIdOf (e : FeedEntry) : String := e.id.getD e.link

/-- data_collector.py lines 339-345: walk entries newest-first, stopping as
soon as an entry's id equals the stored `last_item_id`. -/
def takeNew (lastSeen : Option String) : List FeedEntry → List FeedEntry
  | [] => []
  | e :: rest =>
      if some (entryIdOf e) = lastSeen then []
      else e :: takeNew lastSeen rest

/-- Python `s.split('/')[-1]`: the characters after the last '/' (the
whole string when there is none). -/
def lastSegment (s : String) : String :=
  String.mk (s.data.foldl (fun acc x => if x = '/' then [] else acc ++ [x]) [])

/-- data_collector.py lines 351-398: build the blog post dict from one feed
entry. -/
def postOfEntry (feed_name : String) (e : FeedEntry) : PItem :=
  { id := lastSegment (e.id.getD e.link)
    title := some e.title
    description := some (truncate_text e.summaryText 300)
    url := some e.link
    published := some e.published
    source := some feed_name
    type := some "blog"
    thumbnail := e.contentThumb
    full_text_content :=
      match e.fullText with
      | some t => if t = "" then none else some t
      | none => none }

/-- data_collector.py lines 322-402: process one feed — read the watermark,
take the unseen newest entries, remember the newest entry id, cap the batch
to the per-feed share, build the posts, and (when a truthy newest id was
seen) immediately upsert the new watermark into `source_metadata`.  Note
the items table of the state is NOT touched here. -/
def collectFeed (maxPerFeed : Nat) (now : String) (st : DBState) (f : FeedCfg) :
    List PItem × DBState :=
  let lastSeen := (getMetaRow st f.url).bind fun m => m.last_item_id
  let newEntries := takeNew lastSeen f.entries
  let newestId := newEntries.head?.map entryIdOf
  let toProcess := newEntries.take maxPerFeed
  let posts := toProcess.map (postOfEntry f.name)
  match newestId with
  | some nid =>
      if nid ≠ "" then (posts, putMeta st f.url now (some nid))
      else (posts, st)
  | none => (posts, st)

/-- data_collector.py lines 308-407 (`collect_company_blogs`): fold over
the configured feeds, accumulating posts and threading the database state
(whose `source_metadata` table the per-feed step updates). -/
def collect_company_blogs (feeds : List FeedCfg) (max_results : Nat)
    (now : String) (st : DBState) : List PItem × DBState :=
  feeds.foldl
    (fun acc f =>
      let step := collectFeed (max_results / feeds.length) now acc.2 f
      (acc.1 ++ step.1, step.2))
    ([], st)

/-! ### The news collector

collect_news_articles (data_collector.py lines 144-215).  The NewsAPI
response is modelled as `Option NewsResponse` (`none` = a request/HTTP
exception, caught at lines 207-215 returning []).  Per NewsAPI, an
article's `source` field may be absent, null, or an object with a name;
`article.get('source', {}).get('name', 'Unknown')` (line 193) raises
AttributeError when the field is present but null — and the per-item loop
has NO try/except of its own, so that exception reaches the function-level
handler (line 213) which returns [].  `fullText` is the result of the
exception-free `_fetch_full_article_text`; descriptions are modelled as
plain text (the BeautifulSoup get_text strip is the identity on them). -/

structure RawArticle where
  title : Option String := none
  description : Option String := none
  url : Option String := none
  source : Option (Option String) := none
  publishedAt : Option String := none
  urlToImage : Option String := none
  fullText : Option String := none
  deriving DecidableEq, Repr

structure NewsResponse where
  articles : List RawArticle := []
  deriving DecidableEq, Repr

/-- One iteration of the article loop (lines 183-204): `.error` models the
uncaught AttributeError on a null `source`. -/
def processArticle (a : RawArticle) : Except String PItem :=
  match a.source with
  | some none => .error "AttributeError"
  | _ =>
      .ok { id := lastSegment (a.url.getD "")
            title := some (a.title.getD "")
            description := some
              (if (a.description.getD "") = "" then ""
               else truncate_text (a.description.getD "") 300)
            url := some (a.url.getD "")
            source := some (match a.source with
              | some (some n) => n
              | _ => "Unknown")
            published := some (a.publishedAt.getD "")
            thumbnail := a.urlToImage
            type := some "news"
            full_text_content :=
              match a.fullText with
              | some t => if t = "" then none else some t
              | none => none }

/-- Whether the per-article step succeeded. -/
def articleOk (e : Except String PItem) : Bool :=
  match e with
  | .ok _ => true
  | .error _ => false

/-- The article loop: the first per-item failure aborts the whole loop
(there is no per-item handler). -/
def processArticles : List RawArticle → Except String (List PItem)
  | [] => .ok []
  | a :: rest =>
      match processArticle a with
      | .error e => .error e
      | .ok x =>
          match processArticles rest with
          | .error e => .error e
          | .ok xs => .ok (x :: xs)

/-- data_collector.py lines 144-215: no API key → [], network failure → [],
any exception while processing the articles → [] (the whole source batch is
dropped), otherwise the processed articles. -/
def collect_news_articles (hasKey : Bool) (resp : Option NewsResponse) :
    List PItem :=
  if !hasKey then []
  else
    match resp with
    | none => []
    | some data =>
        match processArticles data.articles with
        | .ok arts => arts
        | .error _ => []

/-! ### Concrete inputs used to settle the enrichment claims -/

/-- An arXiv-style item as produced by `collect_arxiv_papers`
(data_collector.py lines 125-136): it already carries its arXiv category
codes in `categories`. -/
def arxivStyleItem : PItem :=
  { id := "2301.00001v1"
    title := some "A Study of Transformers"
    abstract := some "We study transformer models."
    url := some "https://arxiv.org/pdf/2301.00001v1"
    published := some "2023-01-01T00:00:00"
    source := some "arxiv"
    type := some "paper"
    categories := some ["cs.AI", "cs.LG"] }

/-- A plain news-style item with some descriptive text and no enrichment
fields. -/
def plainNewsItem : PItem :=
  { id := "ai-breakthrough"
    title := some "AI breakthrough announced"
    description := some "A new model was announced today with record benchmark results."
    url := some "https://example.com/news/ai-breakthrough"
    published := some "2024-01-01T12:00:00"
    source := some "Example News"
    type := some "news" }

/-- An item whose description key is present but holds the empty string,
as `collect_news_articles` produces for an article with no description
(data_collector.py line 191). -/
def emptyDescItem : PItem :=
  { id := "no-desc"
    title := some "An article with no description"
    description := some ""
    url := some "https://example.com/news/no-desc"
    type := some "news" }

/-- A parsed enrichment response carrying an empty category list. -/
def emptyCatsAnalysis : Analysis :=
  { categories := some []
    importance_score := some 7
    keywords := some [] }

/-! ### Concrete inputs used to settle the store claims -/

/-- A stored, bookmarked row, as left by an earlier refresh plus a
bookmark. -/
def bookmarkedRow : Row :=
  { id := "b1"
    title := some "Original title"
    url := some "https://example.com/blog/b1"
    source := some "Example Blog"
    source_type := some "blog_posts"
    content_type := some "blog"
    summary := some "Old summary"
    importance_score := 4
    bookmarked := true
    is_read := true }

/-- A re-collected item with the same id as `bookmarkedRow` but fresh
source data (and collector defaults for the flags). -/
def recollectedItem : PItem :=
  { id := "b1"
    title := some "Updated title"
    url := some "https://example.com/blog/b1"
    source := some "Example Blog"
    type := some "blog"
    description := some "Updated description"
    summary := some "New summary"
    categories := some ["Research"]
    keywords := some ["transformers"]
    importance_score := some 8 }

/-- First of a pair of items with the same id: bookmarked, title "A". -/
def pairItemA : PItem :=
  { id := "dup", title := some "A", url := some "https://example.com/dup"
    bookmarked := true }

/-- Second of the pair: same id, title "B", not bookmarked. -/
def pairItemB : PItem :=
  { id := "dup", title := some "B", url := some "https://example.com/dup"
    bookmarked := false }

/-- A small two-row table for the flag-update claim. -/
def flagRowX : Row :=
  { id := "x1", title := some "X", bookmarked := false, is_read := true }

/-- Second row of the flag-update table. -/
def flagRowY : Row :=
  { id := "y1", title := some "Y", bookmarked := true, is_read := false }

/-! ### Concrete inputs used to settle the retrieval claim -/

/-- A high-importance paper row with category "Research". -/
def paperRowTop : Row :=
  { id := "p1", content_type := some "paper", importance_score := 9
    published := some "2024-02-01T00:00:00", categories := ["Research"] }

/-- A mid-importance paper row with categories "Research" and "Theory". -/
def paperRowMid : Row :=
  { id := "p2", content_type := some "paper", importance_score := 7
    published := some "2024-03-01T00:00:00", categories := ["Research", "Theory"] }

/-- A low-importance paper row that the min_importance filter excludes. -/
def paperRowLow : Row :=
  { id := "p3", content_type := some "paper", importance_score := 6
    published := some "2024-01-01T00:00:00", categories := ["Applications"] }

/-- A news row that the content_type filter excludes. -/
def newsRowOther : Row :=
  { id := "n1", content_type := some "news", importance_score := 8
    published := some "2024-02-15T00:00:00", categories := ["Business"] }

/-- A paper row as the no-credential fallback stores it: categories
["Uncategorized"], importance 5. -/
def uncategorizedPaperRow : Row :=
  { id := "p4", content_type := some "paper", importance_score := 5
    published := some "2024-04-01T00:00:00", categories := ["Uncategorized"] }

/-- A paper row whose failed enrichment kept its arXiv category codes. -/
def arxivCodesPaperRow : Row :=
  { id := "p5", content_type := some "paper", importance_score := 8
    published := some "2024-01-20T00:00:00", categories := ["cs.AI", "cs.LG"] }

/-- Filters requesting importance at least 7 and topic "Research". -/
def paperFilters : Filters :=
  { min_importance := some 7, topics := some ["Research"] }

/-! ### Concrete inputs used to settle the watermark claim -/

/-- Newest feed entry of the current run. -/
def entryE7 : FeedEntry :=
  { id := some "E7", link := "https://blog.example.com/p/E7"
    title := "Post seven", summaryText := "Seventh post." }

/-- Middle (also unseen) feed entry. -/
def entryE6 : FeedEntry :=
  { id := some "E6", link := "https://blog.example.com/p/E6"
    title := "Post six", summaryText := "Sixth post." }

/-- The entry whose id equals the stored watermark. -/
def entryE5 : FeedEntry :=
  { id := some "E5", link := "https://blog.example.com/p/E5"
    title := "Post five", summaryText := "Fifth post." }

/-- A feed returning entries newest-first: E7, E6, then the already-seen
E5. -/
def watermarkFeed : FeedCfg :=
  { name := "Example Blog", url := "https://blog.example.com/rss"
    entries := [entryE7, entryE6, entryE5] }

/-- Database state before the run: empty items table, watermark at E5. -/
def watermarkState : DBState :=
  { items := []
    meta := [{ source_id := "https://blog.example.com/rss"
               last_successful_fetch := some "t0"
               last_item_id := some "E5" }] }

/-! ### Concrete inputs used to settle the collector error-handling claim -/

/-- A well-formed NewsAPI article. -/
def goodArticleOne : RawArticle :=
  { title := some "AI chips announced"
    description := some "A new accelerator was announced."
    url := some "https://news.example.com/ai-chips"
    source := some (some "Example News")
    publishedAt := some "2024-01-01T10:00:00Z" }

/-- A malformed article: its `source` field is present but null, so
`article.get('source', {}).get('name', 'Unknown')` raises AttributeError. -/
def nullSourceArticle : RawArticle :=
  { title := some "Broken item"
    description := some "An item with a null source object."
    url := some "https://news.example.com/broken"
    source := some none
    publishedAt := some "2024-01-01T11:00:00Z" }

/-- A second well-formed article, after the malformed one. -/
def goodArticleTwo : RawArticle :=
  { title := some "Robotics update"
    description := some "Progress in robotics."
    url := some "https://news.example.com/robotics"
    source := some (some "Example News")
    publishedAt := some "2024-01-01T12:00:00Z" }

theorem length_mk_data (xs : List Char) : (String.mk xs).length = xs.length := rfl

theorem data_append_eq : ∀ a b : String, (a ++ b).data = a.data ++ b.data
  | ⟨_⟩, ⟨_⟩ => rfl

theorem generate_summary_no_api (text : String) :
    generate_summary none text 150 = truncate_text text 150 := by
  unfold generate_summary truncate_text
  by_cases h : text = "" <;> simp [h]

theorem truthyS_isSome (a : Option String) (h : truthyS a = true) :
    a.isSome = true := by
  cases a with
  | none => simp [truthyS] at h
  | some s => rfl

theorem categorize_content_fields (o : EnrichOutcome) (so : Option String)
    (it : PItem) :
    (categorize_content o so it).id = it.id ∧
    (categorize_content o so it).categories.isSome = true ∧
    (categorize_content o so it).keywords.isSome = true ∧
    (categorize_content o so it).importance_score.isSome = true := by
  cases o <;> simp only [categorize_content, set_default_analysis] <;>
    (try split) <;> (try split) <;> simp

theorem enrichOne_fields (o : EnrichOutcome) (so : Option String) (it : PItem) :
    (enrichOne o so it).id = it.id ∧
    (enrichOne o so it).categories.isSome = true ∧
    (enrichOne o so it).keywords.isSome = true ∧
    (enrichOne o so it).importance_score.isSome = true ∧
    (enrichOne o so it).summary.isSome = true := by
  unfold enrichOne
  obtain ⟨h1, h2, h3, h4⟩ := categorize_content_fields o so (prepare it)
  simp only []
  split
  · rename_i h
    exact ⟨h1, h2, h3, h4, truthyS_isSome _ h⟩
  · exact ⟨h1, h2, h3, h4, rfl⟩

theorem batchGo_length (o : Nat → EnrichOutcome) (so : Nat → Option String) :
    ∀ (n : Nat) (items : List PItem), (batchGo o so n items).length = items.length
  | _, [] => rfl
  | n, _ :: rest => by simp [batchGo, batchGo_length o so (n + 1) rest]

theorem batchGo_getElem (o : Nat → EnrichOutcome) (so : Nat → Option String) :
    ∀ (n i : Nat) (items : List PItem),
      (batchGo o so n items)[i]? = (items[i]?).map (enrichOne (o (n + i)) (so (n + i)))
  | _, _, [] => by simp [batchGo]
  | n, 0, it :: rest => by simp [batchGo]
  | n, i + 1, it :: rest => by
      simp only [batchGo, List.getElem?_cons_succ]
      rw [batchGo_getElem o so (n + 1) i rest]
      have h : n + 1 + i = n + (i + 1) := by omega
      rw [h]

theorem fillType_fields (it : PItem) (ctv : String) :
    (fillType it ctv).id = it.id ∧ (fillType it ctv).title = it.title ∧
    (fillType it ctv).url = it.url ∧ (fillType it ctv).source = it.source ∧
    (fillType it ctv).description = it.description ∧
    (fillType it ctv).abstract = it.abstract ∧
    (fillType it ctv).summary = it.summary ∧
    (fillType it ctv).authors = it.authors ∧
    (fillType it ctv).published = it.published ∧
    (fillType it ctv).thumbnail = it.thumbnail ∧
    (fillType it ctv).channel = it.channel ∧
    (fillType it ctv).categories = it.categories ∧
    (fillType it ctv).keywords = it.keywords ∧
    (fillType it ctv).importance_score = it.importance_score ∧
    (fillType it ctv).bookmarked = it.bookmarked ∧
    (fillType it ctv).is_read = it.is_read := by
  unfold fillType
  split <;> simp

theorem upsertRow_map_keeps_id (r q : Row) :
    (if q.id == r.id then { r with bookmarked := q.bookmarked, is_read := q.is_read }
     else q).id = q.id := by
  split
  · rename_i h
    exact (eq_of_beq h).symm
  · rfl

theorem upsertRow_uniqueIds (st : List Row) (r : Row) (h : uniqueIds st) :
    uniqueIds (upsertRow st r) := by
  unfold upsertRow
  split
  · exact h
  split
  · rw [uniqueIds, List.pairwise_map]
    refine h.imp ?_
    intro a b hab
    rw [upsertRow_map_keeps_id, upsertRow_map_keeps_id]
    exact hab
  · rename_i hconf hany
    rw [uniqueIds, List.pairwise_append]
    refine ⟨h, List.pairwise_singleton _ _, ?_⟩
    intro a ha b hb
    rw [List.mem_singleton] at hb
    subst hb
    intro hEq
    exact hany (List.any_eq_true.mpr ⟨a, ha, by simp [hEq]⟩)

theorem urlConflict_nil (r : Row) : urlConflict [] r = false := by
  unfold urlConflict
  cases r.url <;> simp

theorem toLower_notSpecial {c d : Char} (hd : d.toNat < 97 ∨ 122 < d.toNat)
    (hcd : c ≠ d) : Char.toLower c ≠ d := by
  unfold Char.toLower
  by_cases hu : c.toNat ≥ 65 ∧ c.toNat ≤ 90
  · rw [if_pos hu]
    intro heq
    have hv : (c.toNat + 32).isValidChar := Or.inl (by omega)
    have ht2 : (Char.ofNat (c.toNat + 32)).val.toNat = c.toNat + 32 := by
      simp [Char.ofNat, hv]
      rfl
    have hdn : d.toNat = c.toNat + 32 := by
      rw [← heq]
      exact ht2
    omega
  · rw [if_neg hu]
    exact hcd

theorem mapped_notSpecial {xs : List Char} {d : Char}
    (hd : d.toNat < 97 ∨ 122 < d.toNat) (h : ∀ ch ∈ xs, ch ≠ d) :
    ∀ ch ∈ xs.map Char.toLower, ch ≠ d := by
  intro ch hch
  obtain ⟨c0, hc0, he⟩ := List.mem_map.mp hch
  subst he
  exact toLower_notSpecial hd (h c0 hc0)

theorem toLower_quote : Char.toLower '"' = '"' := by decide

theorem toLower_pct : Char.toLower '%' = '%' := by decide

theorem toLower_comma : Char.toLower ',' = ',' := by decide

theorem toLower_space : Char.toLower ' ' = ' ' := by decide

theorem toLower_lbracket : Char.toLower '[' = '[' := by decide

theorem toLower_rbracket : Char.toLower ']' = ']' := by decide

theorem jsonStr_plain (s : List Char)
    (h : ∀ ch ∈ s, ch ≠ '"' ∧ ch ≠ '\\') :
    jsonStrChars s = '"' :: s ++ ['"'] := by
  unfold jsonStrChars
  have he : s.flatMap jsonEscChar = s := by
    induction s with
    | nil => rfl
    | cons a s2 ih =>
        obtain ⟨h1, h2⟩ := h a (List.mem_cons_self a s2)
        rw [List.flatMap_cons, ih fun ch hc => h ch (List.mem_cons_of_mem a hc)]
        simp [jsonEscChar, h1, h2]
  rw [he]

theorem likeMatch_pct_step (q : List Char) (s : List Char) :
    likeMatch ('%' :: q) s
      = (List.range (s.length + 1)).any fun k => likeMatch q (s.drop k) := by
  simp [likeMatch]

theorem likeMatch_pct_nil (s : List Char) : likeMatch ['%'] s = true := by
  rw [likeMatch_pct_step, List.any_eq_true]
  exact ⟨s.length, List.mem_range.mpr (by omega), by simp [likeMatch]⟩

theorem likeMatch_plain_pct :
    ∀ (p s : List Char), (∀ c ∈ p, c ≠ '%' ∧ c ≠ '_') →
      (likeMatch (p ++ ['%']) s = true ↔ ∃ r, s = p ++ r)
  | [], s, _ => by
      simp only [List.nil_append]
      exact ⟨fun _ => ⟨s, rfl⟩, fun _ => likeMatch_pct_nil s⟩
  | a :: p2, s, h => by
      obtain ⟨ha1, ha2⟩ := h a (List.mem_cons_self a p2)
      have hrest := fun c hc => h c (List.mem_cons_of_mem a hc)
      cases s with
      | nil =>
          constructor
          · intro hm
            simp [likeMatch, ha1] at hm
          · rintro ⟨r, hr⟩
            simp at hr
      | cons c s2 =>
          have ih := likeMatch_plain_pct p2 s2 hrest
          constructor
          · intro hm
            simp only [List.cons_append, likeMatch, if_neg ha1, if_neg ha2,
              Bool.and_eq_true] at hm
            obtain ⟨hac, hm2⟩ := hm
            have hace : a = c := eq_of_beq hac
            subst hace
            obtain ⟨r, hr⟩ := ih.mp hm2
            exact ⟨r, by rw [List.cons_append, hr]⟩
          · rintro ⟨r, hr⟩
            rw [List.cons_append] at hr
            injection hr with h1 h2
            subst h1
            simp only [List.cons_append, likeMatch, if_neg ha1, if_neg ha2,
              Bool.and_eq_true]
            exact ⟨by simp, ih.mpr ⟨r, h2⟩⟩

theorem likeMatch_pct_iff (q s : List Char) :
    likeMatch ('%' :: q) s = true ↔
      ∃ k, k ≤ s.length ∧ likeMatch q (s.drop k) = true := by
  rw [likeMatch_pct_step, List.any_eq_true]
  constructor
  · rintro ⟨k, hk, hm⟩
    have := List.mem_range.mp hk
    exact ⟨k, by omega, hm⟩
  · rintro ⟨k, hk, hm⟩
    exact ⟨k, List.mem_range.mpr (by omega), hm⟩

theorem likeMatch_infix_iff (p s : List Char)
    (h : ∀ c ∈ p, c ≠ '%' ∧ c ≠ '_') :
    likeMatch ('%' :: (p ++ ['%'])) s = true ↔ occursIn p s := by
  rw [likeMatch_pct_iff]
  constructor
  · rintro ⟨k, hk, hm⟩
    obtain ⟨r, hr⟩ := (likeMatch_plain_pct p (s.drop k) h).mp hm
    exact ⟨s.take k, r, by rw [List.append_assoc, ← hr, List.take_append_drop]⟩
  · rintro ⟨l, r, hs⟩
    refine ⟨l.length, ?_, ?_⟩
    · rw [hs]
      simp [List.length_append]
    · have hd : s.drop l.length = p ++ r := by
        rw [hs, List.append_assoc, List.drop_left]
      rw [hd]
      exact (likeMatch_plain_pct p (p ++ r) h).mpr ⟨r, rfl⟩

theorem occursIn_length {p s : List Char} (h : occursIn p s) :
    p.length ≤ s.length := by
  obtain ⟨l, r, hs⟩ := h
  rw [hs]
  simp only [List.length_append]
  omega

theorem occursIn_cons {p0 c : Char} {p2 s : List Char}
    (h : occursIn (p0 :: p2) (c :: s)) (hne : p0 ≠ c) :
    occursIn (p0 :: p2) s := by
  obtain ⟨l, r, hs⟩ := h
  cases l with
  | nil =>
      simp only [List.nil_append, List.cons_append] at hs
      injection hs with h1 _
      exact absurd h1.symm hne
  | cons a l2 =>
      simp only [List.cons_append] at hs
      injection hs with _ h2
      exact ⟨l2, r, h2⟩

theorem occursIn_split (p x y : List Char) (h : occursIn p (x ++ y)) :
    occursIn p x ∨ occursIn p y ∨
      ∃ p1 p2, p = p1 ++ p2 ∧ p1 ≠ [] ∧ p2 ≠ [] ∧
        (∃ l, x = l ++ p1) ∧ ∃ r, y = p2 ++ r := by
  obtain ⟨l, r, hs⟩ := h
  rcases List.append_eq_append_iff.mp hs with ⟨a, ha1, ha2⟩ | ⟨c, hc1, hc2⟩
  · rcases List.append_eq_append_iff.mp ha1 with ⟨w, hw1, hw2⟩ | ⟨w, hw1, hw2⟩
    · by_cases hwe : w = []
      · subst hwe
        rw [List.nil_append] at hw2
        right; left
        exact ⟨[], r, by rw [ha2, hw2]; simp⟩
      · by_cases hae : a = []
        · subst hae
          rw [List.append_nil] at hw2
          left
          exact ⟨l, [], by rw [List.append_nil, hw1, hw2]⟩
        · right; right
          exact ⟨w, a, hw2, hwe, hae, ⟨l, hw1⟩, ⟨r, ha2⟩⟩
    · right; left
      exact ⟨w, r, by rw [ha2, hw2]⟩
  · left
    exact ⟨l, c, hc1⟩

theorem chop_eq :
    ∀ (t c r1 r2 : List Char),
      (∀ ch ∈ t, ch ≠ '"') → (∀ ch ∈ c, ch ≠ '"') →
      t ++ '"' :: r1 = c ++ '"' :: r2 → t = c ∧ r1 = r2
  | [], [], r1, r2, _, _, he => by
      simp only [List.nil_append] at he
      injection he with _ h2
      exact ⟨rfl, h2⟩
  | [], d :: c2, r1, r2, _, hc, he => by
      simp only [List.nil_append, List.cons_append] at he
      injection he with h1 _
      exact absurd h1.symm (hc d (List.mem_cons_self d c2))
  | a :: t2, [], r1, r2, ht, _, he => by
      simp only [List.cons_append, List.nil_append] at he
      injection he with h1 _
      exact absurd h1 (ht a (List.mem_cons_self a t2))
  | a :: t2, d :: c2, r1, r2, ht, hc, he => by
      simp only [List.cons_append] at he
      injection he with h1 h2
      obtain ⟨he1, he2⟩ := chop_eq t2 c2 r1 r2
        (fun ch hch => ht ch (List.mem_cons_of_mem a hch))
        (fun ch hch => hc ch (List.mem_cons_of_mem d hch)) h2
      exact ⟨by rw [h1, he1], he2⟩

theorem chop_close :
    ∀ (c l z : List Char),
      (∀ ch ∈ c, ch ≠ '"') →
      l ++ '"' :: z = c ++ ['"'] → l = c ∧ z = []
  | [], l, z, _, he => by
      cases l with
      | nil =>
          simp only [List.nil_append] at he
          injection he with _ h2
          exact ⟨rfl, h2⟩
      | cons a l2 =>
          simp only [List.cons_append, List.nil_append] at he
          injection he with _ h2
          exact absurd h2 (by simp)
  | d :: c2, l, z, hc, he => by
      cases l with
      | nil =>
          simp only [List.nil_append, List.cons_append] at he
          injection he with h1 _
          exact absurd h1.symm (hc d (List.mem_cons_self d c2))
      | cons a l2 =>
          simp only [List.cons_append] at he
          injection he with h1 h2
          obtain ⟨g1, g2⟩ := chop_close c2 l2 z
            (fun ch hch => hc ch (List.mem_cons_of_mem d hch)) h2
          exact ⟨by rw [h1, g1], g2⟩

theorem tokOcc (t c : List Char)
    (ht : ∀ ch ∈ t, ch ≠ '"') (hc : ∀ ch ∈ c, ch ≠ '"')
    (h : occursIn ('"' :: t ++ ['"']) ('"' :: c ++ ['"'])) : t = c := by
  obtain ⟨l, r, hs⟩ := h
  cases l with
  | nil =>
      simp only [List.nil_append, List.cons_append, List.append_assoc] at hs
      injection hs with _ h2
      exact (chop_eq t c r [] ht hc (by simpa using h2.symm)).1
  | cons a l2 =>
      simp only [List.cons_append, List.append_assoc] at hs
      injection hs with h1 h2
      obtain ⟨_, hz⟩ := chop_close c l2 (t ++ ('"' :: r)) hc
        (by simpa using h2.symm)
      exact absurd hz (by simp)

theorem patChar_cases {ch : Char} {t : List Char}
    (h : ch ∈ '"' :: t ++ ['"']) : ch = '"' ∨ ch ∈ t := by
  rcases List.mem_cons.mp h with h1 | h2
  · exact Or.inl h1
  · rcases List.mem_append.mp h2 with h3 | h4
    · exact Or.inr h3
    · exact Or.inl (List.mem_singleton.mp h4)

theorem body_occursIn :
    ∀ (cats : List (List Char)) (t : List Char),
      (∀ ch ∈ t, ch ≠ '"' ∧ ch ≠ ',' ∧ ch ≠ ']') →
      (∀ cat ∈ cats, ∀ ch ∈ cat, ch ≠ '"' ∧ ch ≠ '\\') →
      occursIn ('"' :: t ++ ['"']) (jsonListBody cats ++ [']']) →
      t ∈ cats
  | [], t, ht, _, hocc => by
      exfalso
      have hlen := occursIn_length hocc
      simp [jsonListBody] at hlen
  | [c], t, ht, hcats, hocc => by
      have hc := hcats c (by simp)
      have hqt : ∀ ch ∈ t, ch ≠ '"' := fun ch h => (ht ch h).1
      have hqc : ∀ ch ∈ c, ch ≠ '"' := fun ch h => (hc ch h).1
      have hb : jsonListBody [c] = jsonStrChars c := rfl
      rw [hb, jsonStr_plain c hc] at hocc
      rcases occursIn_split _ _ _ hocc with h1 | h2 | ⟨p1, p2, hp, _, hne, _, ⟨r, hy⟩⟩
      · simp [tokOcc t c hqt hqc h1]
      · exfalso
        have hlen := occursIn_length h2
        simp at hlen
      · exfalso
        cases p2 with
        | nil => exact hne rfl
        | cons q p2' =>
            rw [List.cons_append] at hy
            injection hy with hq _
            have hqmem : q ∈ '"' :: t ++ ['"'] := by
              rw [hp]
              exact List.mem_append.mpr (Or.inr (List.mem_cons_self q p2'))
            rcases patChar_cases hqmem with h | h
            · rw [← hq] at h
              exact absurd h (by decide)
            · rw [← hq] at h
              exact (ht ']' h).2.2 rfl
  | c :: c2 :: rest, t, ht, hcats, hocc => by
      have hc := hcats c (by simp)
      have hqt : ∀ ch ∈ t, ch ≠ '"' := fun ch h => (ht ch h).1
      have hqc : ∀ ch ∈ c, ch ≠ '"' := fun ch h => (hc ch h).1
      have hshape : jsonListBody (c :: c2 :: rest) ++ [']']
          = ('"' :: c ++ ['"'])
            ++ (',' :: ' ' :: (jsonListBody (c2 :: rest) ++ [']'])) := by
        have hb : jsonListBody (c :: c2 :: rest)
            = jsonStrChars c ++ [',', ' '] ++ jsonListBody (c2 :: rest) := rfl
        rw [hb, jsonStr_plain c hc]
        simp
      rw [hshape] at hocc
      rcases occursIn_split _ _ _ hocc with h1 | h2 | ⟨p1, p2, hp, _, hne, _, ⟨r, hy⟩⟩
      · have := tokOcc t c hqt hqc h1
        simp [this]
      · have h3 := occursIn_cons h2 (by decide)
        have h4 := occursIn_cons h3 (by decide)
        have := body_occursIn (c2 :: rest) t ht
          (fun cat hcat => hcats cat (List.mem_cons_of_mem c hcat)) h4
        exact List.mem_cons_of_mem c this
      · exfalso
        cases p2 with
        | nil => exact hne rfl
        | cons q p2' =>
            rw [List.cons_append] at hy
            injection hy with hq _
            have hqmem : q ∈ '"' :: t ++ ['"'] := by
              rw [hp]
              exact List.mem_append.mpr (Or.inr (List.mem_cons_self q p2'))
            rcases patChar_cases hqmem with h | h
            · rw [← hq] at h
              exact absurd h (by decide)
            · rw [← hq] at h
              exact (ht ',' h).2.1 rfl

theorem mapped_plain {xs : List Char}
    (h : ∀ ch ∈ xs, ch ≠ '"' ∧ ch ≠ '\\') :
    ∀ ch ∈ xs.map Char.toLower, ch ≠ '"' ∧ ch ≠ '\\' := by
  intro ch hch
  exact ⟨mapped_notSpecial (by decide) (fun c0 hc0 => (h c0 hc0).1) ch hch,
    mapped_notSpecial (by decide) (fun c0 hc0 => (h c0 hc0).2) ch hch⟩

theorem map_toLower_jsonListBody :
    ∀ cats : List (List Char),
      (∀ cat ∈ cats, ∀ ch ∈ cat, ch ≠ '"' ∧ ch ≠ '\\') →
      (jsonListBody cats).map Char.toLower
        = jsonListBody (cats.map (List.map Char.toLower))
  | [], _ => rfl
  | [c], h => by
      have hc := h c (by simp)
      show (jsonStrChars c).map Char.toLower
        = jsonListBody [c.map Char.toLower]
      have hb : jsonListBody [c.map Char.toLower]
          = jsonStrChars (c.map Char.toLower) := rfl
      rw [hb, jsonStr_plain c hc, jsonStr_plain _ (mapped_plain hc)]
      simp [toLower_quote]
  | c :: c2 :: rest, h => by
      have hc := h c (by simp)
      have hb1 : jsonListBody (c :: c2 :: rest)
          = jsonStrChars c ++ [',', ' '] ++ jsonListBody (c2 :: rest) := rfl
      have hb2 : jsonListBody ((c :: c2 :: rest).map (List.map Char.toLower))
          = jsonStrChars (c.map Char.toLower) ++ [',', ' ']
            ++ jsonListBody ((c2 :: rest).map (List.map Char.toLower)) := rfl
      rw [hb1, hb2, jsonStr_plain c hc, jsonStr_plain _ (mapped_plain hc),
        ← map_toLower_jsonListBody (c2 :: rest)
          (fun cat hcat => h cat (List.mem_cons_of_mem c hcat))]
      simp [toLower_quote, toLower_comma, toLower_space]

theorem encode_lower (cats : List String)
    (h : ∀ cat ∈ cats, ∀ ch ∈ cat.data, ch ≠ '"' ∧ ch ≠ '\\') :
    (jsonEncodeList cats).data.map Char.toLower
      = '[' :: jsonListBody ((cats.map String.data).map (List.map Char.toLower))
          ++ [']'] := by
  show ('[' :: jsonListBody (cats.map String.data) ++ [']']).map Char.toLower = _
  have hplain : ∀ cat ∈ cats.map String.data, ∀ ch ∈ cat,
      ch ≠ '"' ∧ ch ≠ '\\' := by
    intro cat hcat ch hch
    obtain ⟨c0, hc0, he⟩ := List.mem_map.mp hcat
    rw [← he] at hch
    exact h c0 hc0 ch hch
  simp only [List.map_cons, List.map_append]
  rw [map_toLower_jsonListBody (cats.map String.data) hplain]
  simp [toLower_lbracket, toLower_rbracket]

theorem topicPattern_data (t : String) :
    (topicPattern t).data = '%' :: '"' :: t.data ++ ['"', '%'] := by
  show (("%\"" ++ t) ++ "\"%").data = _
  rw [data_append_eq, data_append_eq]
  rfl

theorem topicPattern_lower (t : String) :
    (topicPattern t).data.map Char.toLower
      = '%' :: (('"' :: t.data.map Char.toLower ++ ['"']) ++ ['%']) := by
  rw [topicPattern_data]
  simp [toLower_quote, toLower_pct]

theorem topicMatch_mem (t : String) (cats : List String)
    (ht : ∀ ch ∈ t.data,
      ch ≠ '"' ∧ ch ≠ '%' ∧ ch ≠ '_' ∧ ch ≠ ',' ∧ ch ≠ ']')
    (hc : ∀ cat ∈ cats, ∀ ch ∈ cat.data, ch ≠ '"' ∧ ch ≠ '\\')
    (hm : likeCI (topicPattern t) (jsonEncodeList cats) = true) :
    ∃ cat ∈ cats, cat.data.map Char.toLower = t.data.map Char.toLower := by
  unfold likeCI at hm
  rw [topicPattern_lower] at hm
  have hwf : ∀ ch ∈ '"' :: t.data.map Char.toLower ++ ['"'],
      ch ≠ '%' ∧ ch ≠ '_' := by
    intro ch hch
    rcases patChar_cases hch with h | h
    · subst h
      exact ⟨by decide, by decide⟩
    · exact ⟨mapped_notSpecial (by decide) (fun c0 h0 => (ht c0 h0).2.1) ch h,
        mapped_notSpecial (by decide) (fun c0 h0 => (ht c0 h0).2.2.1) ch h⟩
  have hocc := (likeMatch_infix_iff _ _ hwf).mp hm
  rw [encode_lower cats hc] at hocc
  have hocc2 := occursIn_cons hocc (by decide)
  have hlt : ∀ ch ∈ t.data.map Char.toLower,
      ch ≠ '"' ∧ ch ≠ ',' ∧ ch ≠ ']' := by
    intro ch hch
    exact ⟨mapped_notSpecial (by decide) (fun c0 h0 => (ht c0 h0).1) ch hch,
      mapped_notSpecial (by decide) (fun c0 h0 => (ht c0 h0).2.2.2.1) ch hch,
      mapped_notSpecial (by decide) (fun c0 h0 => (ht c0 h0).2.2.2.2) ch hch⟩
  have hplain2 : ∀ cat ∈ (cats.map String.data).map (List.map Char.toLower),
      ∀ ch ∈ cat, ch ≠ '"' ∧ ch ≠ '\\' := by
    intro cat hcat
    obtain ⟨c0, hc0, he⟩ := List.mem_map.mp hcat
    obtain ⟨c1, hc1, he1⟩ := List.mem_map.mp hc0
    rw [← he, ← he1]
    exact mapped_plain (hc c1 hc1)
  have hmem := body_occursIn ((cats.map String.data).map (List.map Char.toLower))
    (t.data.map Char.toLower) hlt hplain2 hocc2
  rw [List.map_map] at hmem
  obtain ⟨cat, hcat, he⟩ := List.mem_map.mp hmem
  exact ⟨cat, hcat, he⟩

theorem processArticles_all_ok :
    ∀ arts : List RawArticle,
      (∀ a ∈ arts, articleOk (processArticle a) = true) →
      ∃ xs, processArticles arts = .ok xs ∧ xs.length = arts.length
  | [], _ => ⟨[], rfl, rfl⟩
  | a :: rest, h => by
      have ha := h a (List.mem_cons_self a rest)
      obtain ⟨x, hx⟩ : ∃ x, processArticle a = .ok x := by
        cases hpa : processArticle a with
        | ok x => exact ⟨x, rfl⟩
        | error e => rw [hpa] at ha; simp [articleOk] at ha
      obtain ⟨xs, hxs, hlen⟩ := processArticles_all_ok rest
        fun b hb => h b (List.mem_cons_of_mem a hb)
      exact ⟨x :: xs, by rw [processArticles, hx, hxs], by simp [hlen]⟩

theorem processArticles_has_err :
    ∀ arts : List RawArticle,
      (∃ a ∈ arts, articleOk (processArticle a) = false) →
      ∃ e, processArticles arts = .error e
  | [], h => by simp at h
  | a :: rest, h => by
      cases hpa : processArticle a with
      | error e => exact ⟨e, by rw [processArticles, hpa]⟩
      | ok x =>
          obtain ⟨b, hb, hbad⟩ := h
          rcases List.mem_cons.mp hb with hba | hbr
          · subst hba
            rw [hpa] at hbad
            simp [articleOk] at hbad
          · obtain ⟨e, he⟩ := processArticles_has_err rest ⟨b, hbr, hbad⟩
            exact ⟨e, by rw [processArticles, hpa, he]⟩

end Feed

/-- C10: for every string `text` and bound `max_length`, `truncate_text`
returns `text` unchanged when `text` is empty or `text.length ≤ max_length`,
and otherwise returns the first `max_length` characters of `text` followed by
"...", a string of length `max_length + 3`. -/
theorem c10_truncate_text (text : String) (max_length : Nat) :
    (text = "" ∨ text.length ≤ max_length →
      Feed.truncate_text text max_length = text) ∧
    (text ≠ "" ∧ max_length < text.length →
      Feed.truncate_text text max_length
          = String.mk (text.data.take max_length) ++ "..." ∧
        (Feed.truncate_text text max_length).length = max_length + 3) := by
  constructor
  · intro h
    simp [Feed.truncate_text, h]
  · rintro ⟨h1, h2⟩
    have hcond : ¬ (text = "" ∨ text.length ≤ max_length) := by
      push_neg
      exact ⟨h1, h2⟩
    constructor
    · simp [Feed.truncate_text, hcond]
    · have : Feed.truncate_text text max_length
          = String.mk (text.data.take max_length) ++ "..." := by
        simp [Feed.truncate_text, hcond]
      rw [this]
      have hlen : (String.mk (text.data.take max_length) ++ "...").data.length
          = max_length + 3 := by
        rw [Feed.data_append_eq]
        simp only [List.length_append]
        have htake : (text.data.take max_length).length = max_length := by
          rw [List.length_take]
          have : text.length = text.data.length := rfl
          omega
        rw [htake]
        rfl
      exact hlen

/-- Witness for C10 at a concrete input: "abcdef" truncated to 3 characters
gives "abc...", of length 6. -/
theorem c10_truncate_text_witness :
    Feed.truncate_text "abcdef" 3 = String.mk ("abcdef".data.take 3) ++ "..." ∧
      (Feed.truncate_text "abcdef" 3).length = 3 + 3 :=
  (c10_truncate_text "abcdef" 3).2 (by decide)

/-- C4 counterexample: for an item that already carries collector-supplied
categories (an arXiv paper with its arXiv category codes), a failing
enrichment call does NOT set categories to ["Uncategorized"]:
`_set_default_analysis` keeps the existing categories
(`item.get('categories', ['Uncategorized'])`), so the claimed defaults are
not applied. -/
theorem c4_counterexample :
    (Feed.categorize_content .connectionError none Feed.arxivStyleItem).categories
        = some ["cs.AI", "cs.LG"] ∧
      (Feed.categorize_content .connectionError none Feed.arxivStyleItem).categories
        ≠ some ["Uncategorized"] := by
  constructor
  · rfl
  · decide

/-- C4 (amended): on any transport error, rate-limit signal or parse failure,
`categorize_content` applies `_set_default_analysis` and returns the item
(the failure is never surfaced): categories become ["Uncategorized"] only
when the item has none already, importance_score becomes 3 only when absent,
keywords become [] only when absent, and a truthy existing summary is kept;
when the summary is absent or falsy it is regenerated through a secondary
summary call which itself falls back to a plain truncation of the source
text to the 150-character budget when that call also fails. -/
theorem c4_failure_applies_defaults (it : Feed.PItem) (o : Feed.EnrichOutcome)
    (so : Option String) (hfail : o.failed = true) :
    Feed.categorize_content o so it = Feed.set_default_analysis so it ∧
    (Feed.categorize_content o so it).categories
        = some (it.categories.getD ["Uncategorized"]) ∧
    (Feed.categorize_content o so it).importance_score
        = some (it.importance_score.getD 3) ∧
    (Feed.categorize_content o so it).keywords = some (it.keywords.getD []) ∧
    (Feed.truthyS it.summary = true →
      (Feed.categorize_content o so it).summary = it.summary) ∧
    (Feed.truthyS it.summary = false → so = none →
      (Feed.categorize_content o so it).summary
          = some (Feed.truncate_text (Feed.contentOf it) 150)) := by
  cases o
  case parsed a => simp [Feed.EnrichOutcome.failed] at hfail
  all_goals
    refine ⟨rfl, rfl, rfl, rfl, fun h => ?_, fun h hso => ?_⟩ <;>
      (try subst hso) <;>
      simp [Feed.categorize_content, Feed.set_default_analysis, h,
        Feed.generate_summary_no_api]

/-- Witness for C4 at a concrete input: a rate-limited enrichment of a plain
news item yields the kept defaults and the truncated description as
summary. -/
theorem c4_failure_applies_defaults_witness :
    Feed.EnrichOutcome.rateLimitError.failed = true ∧
      (Feed.categorize_content .rateLimitError none Feed.plainNewsItem).categories
          = some (Feed.plainNewsItem.categories.getD ["Uncategorized"]) ∧
      (Feed.categorize_content .rateLimitError none Feed.plainNewsItem).importance_score
          = some (Feed.plainNewsItem.importance_score.getD 3) ∧
      (Feed.categorize_content .rateLimitError none Feed.plainNewsItem).keywords
          = some (Feed.plainNewsItem.keywords.getD []) ∧
      (Feed.categorize_content .rateLimitError none Feed.plainNewsItem).summary
          = some (Feed.truncate_text (Feed.contentOf Feed.plainNewsItem) 150) := by
  have h := c4_failure_applies_defaults Feed.plainNewsItem .rateLimitError none rfl
  exact ⟨rfl, h.2.1, h.2.2.1, h.2.2.2.1, h.2.2.2.2.2 rfl rfl⟩

/-- C5: with no enrichment credential (a falsy API key), `batch_process`
consults no remote-call oracle (the result is the same for any oracles,
i.e. no remote calls are made and the result is deterministic), preserves
the batch length, and maps every item to the uniform fallback:
categories = ["Uncategorized"], keywords = [], importance_score = the
default 5, and summary = the truncation of the item's source text
(description if the key is present, else abstract) to the 150-character
budget. -/
theorem c5_no_key_fallback (key : Option String) (o o₂ : Nat → Feed.EnrichOutcome)
    (so so₂ : Nat → Option String) (items : List Feed.PItem)
    (hkey : Feed.truthyS key = false) :
    Feed.batch_process key o so items = Feed.batch_process key o₂ so₂ items ∧
    (Feed.batch_process key o so items).length = items.length ∧
    ∀ (i : Nat) (it0 : Feed.PItem), items[i]? = some it0 →
      (Feed.batch_process key o so items)[i]? = some (Feed.noKeyProcess it0) ∧
      (Feed.noKeyProcess it0).categories = some ["Uncategorized"] ∧
      (Feed.noKeyProcess it0).keywords = some [] ∧
      (Feed.noKeyProcess it0).importance_score = some 5 ∧
      (Feed.noKeyProcess it0).summary
          = some (Feed.truncate_text (Feed.noKeyContent it0) 150) ∧
      (Feed.noKeyProcess it0).id = it0.id := by
  have hb : ∀ (oa : Nat → Feed.EnrichOutcome) (sa : Nat → Option String),
      Feed.batch_process key oa sa items = items.map Feed.noKeyProcess := by
    intro oa sa
    unfold Feed.batch_process
    rw [hkey]
    simp
  refine ⟨by rw [hb, hb], by rw [hb]; exact List.length_map _ _, fun i it0 h => ?_⟩
  rw [hb]
  exact ⟨by simp [List.getElem?_map, h], rfl, rfl, rfl, rfl, rfl⟩

/-- Witness for C5 at a concrete input: enriching a one-item batch with no
API key. -/
theorem c5_no_key_fallback_witness :
    (Feed.batch_process none (fun _ => .otherError) (fun _ => none)
          [Feed.plainNewsItem])[0]? = some (Feed.noKeyProcess Feed.plainNewsItem) ∧
      (Feed.noKeyProcess Feed.plainNewsItem).categories = some ["Uncategorized"] ∧
      (Feed.noKeyProcess Feed.plainNewsItem).keywords = some [] ∧
      (Feed.noKeyProcess Feed.plainNewsItem).importance_score = some 5 ∧
      (Feed.noKeyProcess Feed.plainNewsItem).summary
          = some (Feed.truncate_text (Feed.noKeyContent Feed.plainNewsItem) 150) ∧
      (Feed.noKeyProcess Feed.plainNewsItem).id = Feed.plainNewsItem.id :=
  (c5_no_key_fallback none (fun _ => .otherError) (fun _ => .otherError)
      (fun _ => none) (fun _ => none) [Feed.plainNewsItem] rfl).2.2 0
    Feed.plainNewsItem rfl

/-- C6 counterexample: with an API key configured, an item whose description
is the empty string and a parsed response carrying `categories: []` yields
an output item with EMPTY categories and an EMPTY summary — refuting the
claim that every output item has non-empty categories and a non-empty
summary. -/
theorem c6_counterexample :
    ((Feed.batch_process (some "sk-test") (fun _ => .parsed Feed.emptyCatsAnalysis)
          (fun _ => none) [Feed.emptyDescItem]).map
        fun r => (r.categories, r.summary))
      = [(some [], some "")] := by
  decide

/-- C6 (amended): `batch_process` preserves input count and order (the item
at every index keeps its id), and every output item carries categories,
keywords, importance_score and summary fields; but the categories list may
be empty (when the parsed response supplies an empty list) and the summary
may be the empty string (when the item's source text is empty), so only
presence, not non-emptiness, holds. -/
theorem c6_batch_shape (key : Option String) (o : Nat → Feed.EnrichOutcome)
    (so : Nat → Option String) (items : List Feed.PItem) :
    (Feed.batch_process key o so items).length = items.length ∧
    ∀ (i : Nat) (it0 : Feed.PItem), items[i]? = some it0 →
      ∃ r, (Feed.batch_process key o so items)[i]? = some r ∧ r.id = it0.id ∧
        r.categories.isSome = true ∧ r.keywords.isSome = true ∧
        r.importance_score.isSome = true ∧ r.summary.isSome = true := by
  unfold Feed.batch_process
  split
  · refine ⟨Feed.batchGo_length o so 0 items, fun i it0 h => ?_⟩
    refine ⟨Feed.enrichOne (o i) (so i) it0, ?_, ?_⟩
    · rw [Feed.batchGo_getElem o so 0 i items, h]
      simp
    · obtain ⟨h1, h2, h3, h4, h5⟩ := Feed.enrichOne_fields (o i) (so i) it0
      exact ⟨h1, h2, h3, h4, h5⟩
  · refine ⟨List.length_map _ _, fun i it0 h => ?_⟩
    exact ⟨Feed.noKeyProcess it0, by simp [List.getElem?_map, h], rfl, rfl, rfl, rfl, rfl⟩

/-- Witness for C6 (amended) at a concrete input. -/
theorem c6_batch_shape_witness :
    ∃ r, (Feed.batch_process (some "sk-w") (fun _ => .jsonDecodeError)
          (fun _ => some "A model summary.") [Feed.arxivStyleItem])[0]? = some r ∧
        r.id = Feed.arxivStyleItem.id ∧
        r.categories.isSome = true ∧ r.keywords.isSome = true ∧
        r.importance_score.isSome = true ∧ r.summary.isSome = true :=
  (c6_batch_shape (some "sk-w") (fun _ => .jsonDecodeError)
      (fun _ => some "A model summary.") [Feed.arxivStyleItem]).2 0
    Feed.arxivStyleItem rfl

/-- C1: upserting a re-collected item whose id is already stored replaces
every source-derived column (title, url, source, source_type, description,
summary, authors, published, thumbnail, categories, keywords,
importance_score, channel, raw_data, processed_at, last_fetched_at) with
the freshly collected values, but keeps the stored row's `bookmarked` and
`is_read` — whatever flag values the collector or enrichment supplied — and
leaves rows with other ids in the table.  (The upsert can only be skipped
by the UNIQUE(url) constraint, hence the no-url-conflict hypothesis.) -/
theorem c1_upsert_preserves_flags (st : List Feed.Row) (it : Feed.PItem)
    (sk ctv now : String) (q : Feed.Row) (hq : q ∈ st) (hid : q.id = it.id)
    (hurl : Feed.urlConflict st
        (Feed.rowOfItem (Feed.fillType it ctv) sk
          ((Feed.fillType it ctv).type.getD "") now) = false) :
    ∃ r, r ∈ Feed.upsertItem st it sk ctv now ∧ r.id = it.id ∧
      r.bookmarked = q.bookmarked ∧ r.is_read = q.is_read ∧
      r.title = it.title ∧ r.url = it.url ∧ r.source = it.source ∧
      r.source_type = some sk ∧
      r.description = Feed.pyOrOpt it.description it.abstract ∧
      r.summary = it.summary ∧ r.authors = it.authors ∧
      r.published = it.published ∧ r.thumbnail = it.thumbnail ∧
      r.categories = it.categories.getD [] ∧
      r.keywords = it.keywords.getD [] ∧
      r.importance_score = it.importance_score.getD 5 ∧
      r.channel = it.channel ∧ r.raw_data = Feed.fillType it ctv ∧
      r.processed_at = now ∧ r.last_fetched_at = now ∧
      (∀ p ∈ st, p.id ≠ it.id → p ∈ Feed.upsertItem st it sk ctv now) := by
  obtain ⟨f1, f2, f3, f4, f5, f6, f7, f8, f9, f10, f11, f12, f13, f14, f15, f16⟩ :=
    Feed.fillType_fields it ctv
  set r0 := Feed.rowOfItem (Feed.fillType it ctv) sk
    ((Feed.fillType it ctv).type.getD "") now with hr0
  have hr0id : r0.id = it.id := f1
  have hany : (st.any fun p => p.id == r0.id) = true :=
    List.any_eq_true.mpr ⟨q, hq, by simp [hid, hr0id]⟩
  have hst : Feed.upsertItem st it sk ctv now =
      st.map fun p =>
        if p.id == r0.id then { r0 with bookmarked := p.bookmarked, is_read := p.is_read }
        else p := by
    simp only [Feed.upsertItem, Feed.upsertRow]
    rw [← hr0, if_neg (by rw [hurl]; exact Bool.false_ne_true), if_pos hany]
  refine ⟨{ r0 with bookmarked := q.bookmarked, is_read := q.is_read }, ?_,
    hr0id, rfl, rfl, f2, f3, f4, rfl, ?_, f7, f8, f9, f10, ?_, ?_, ?_, f11, rfl,
    rfl, rfl, ?_⟩
  · rw [hst]
    refine List.mem_map.mpr ⟨q, hq, ?_⟩
    simp [hid, hr0id]
  · show Feed.pyOrOpt (Feed.fillType it ctv).description (Feed.fillType it ctv).abstract
      = Feed.pyOrOpt it.description it.abstract
    rw [f5, f6]
  · show (Feed.fillType it ctv).categories.getD [] = it.categories.getD []
    rw [f12]
  · show (Feed.fillType it ctv).keywords.getD [] = it.keywords.getD []
    rw [f13]
  · show (Feed.fillType it ctv).importance_score.getD 5 = it.importance_score.getD 5
    rw [f14]
  · intro p hp hne
    rw [hst]
    refine List.mem_map.mpr ⟨p, hp, ?_⟩
    simp [hr0id, hne]

/-- Witness for C1 at a concrete input: a bookmarked, read row refreshed
with updated source data for the same id stays bookmarked and read while
its title is replaced. -/
theorem c1_upsert_preserves_flags_witness :
    ∃ r, r ∈ Feed.upsertItem [Feed.bookmarkedRow] Feed.recollectedItem
          "blog_posts" "blog" "t9" ∧
      r.bookmarked = true ∧ r.is_read = true ∧
      r.title = some "Updated title" ∧ r.summary = some "New summary" := by
  obtain ⟨r, hmem, _, hb, hir, ht, _, _, _, _, hs, _⟩ :=
    c1_upsert_preserves_flags [Feed.bookmarkedRow] Feed.recollectedItem
      "blog_posts" "blog" "t9" Feed.bookmarkedRow (List.mem_singleton.mpr rfl)
      rfl (by decide)
  exact ⟨r, hmem, hb, hir, ht, hs⟩

/-- C3 counterexample: upserting two items with the same id in sequence
(first bookmarked, second not) leaves exactly one row, which carries the
LAST item's title but the FIRST item's `bookmarked` flag — contradicting
"carrying the field values of the last upsert", since the last upsert
supplied `bookmarked = false`. -/
theorem c3_counterexample :
    ((Feed.upsertItem (Feed.upsertItem [] Feed.pairItemA "blog_posts" "blog" "t1")
          Feed.pairItemB "blog_posts" "blog" "t2").map
        fun r => (r.title, r.bookmarked)) = [(some "B", true)] ∧
      Feed.pairItemB.bookmarked = false := by
  decide

/-- C3 (amended): the upsert is keyed by id — it never creates a second row
with an existing id (key uniqueness is preserved by every upsert), and
upserting two items with the same id in sequence yields exactly one row for
that id carrying the source-derived field values of the LAST upsert, while
`bookmarked`/`is_read` keep the values from the first insert. -/
theorem c3_upsert_idempotent_by_id :
    (∀ (st : List Feed.Row) (it : Feed.PItem) (sk ctv now : String),
        Feed.uniqueIds st → Feed.uniqueIds (Feed.upsertItem st it sk ctv now)) ∧
    ∀ (it1 it2 : Feed.PItem) (sk ctv t1 t2 : String), it1.id = it2.id →
      ∃ r, Feed.upsertItem (Feed.upsertItem [] it1 sk ctv t1) it2 sk ctv t2 = [r] ∧
        r.id = it2.id ∧ r.title = it2.title ∧ r.url = it2.url ∧
        r.source = it2.source ∧
        r.description = Feed.pyOrOpt it2.description it2.abstract ∧
        r.summary = it2.summary ∧
        r.categories = it2.categories.getD [] ∧
        r.keywords = it2.keywords.getD [] ∧
        r.importance_score = it2.importance_score.getD 5 ∧
        r.bookmarked = it1.bookmarked ∧ r.is_read = it1.is_read := by
  constructor
  · intro st it sk ctv now h
    exact Feed.upsertRow_uniqueIds st _ h
  · intro it1 it2 sk ctv t1 t2 hid
    obtain ⟨g1, g2, g3, g4, g5, g6, g7, g8, g9, g10, g11, g12, g13, g14, g15, g16⟩ :=
      Feed.fillType_fields it1 ctv
    obtain ⟨f1, f2, f3, f4, f5, f6, f7, f8, f9, f10, f11, f12, f13, f14, f15, f16⟩ :=
      Feed.fillType_fields it2 ctv
    set r1 := Feed.rowOfItem (Feed.fillType it1 ctv) sk
      ((Feed.fillType it1 ctv).type.getD "") t1 with hr1
    set r2 := Feed.rowOfItem (Feed.fillType it2 ctv) sk
      ((Feed.fillType it2 ctv).type.getD "") t2 with hr2
    have hr1id : r1.id = it1.id := g1
    have hr2id : r2.id = it2.id := f1
    have hfirst : Feed.upsertItem [] it1 sk ctv t1 = [r1] := by
      simp only [Feed.upsertItem, Feed.upsertRow]
      rw [← hr1, if_neg (by rw [Feed.urlConflict_nil]; exact Bool.false_ne_true)]
      simp
    have hids : r1.id = r2.id := by rw [hr1id, hr2id, hid]
    have hconf : Feed.urlConflict [r1] r2 = false := by
      unfold Feed.urlConflict
      cases hu : r2.url with
      | none => rfl
      | some u => simp [hids]
    have hany : ([r1].any fun p => p.id == r2.id) = true := by simp [hids]
    have hsecond : Feed.upsertItem (Feed.upsertItem [] it1 sk ctv t1) it2 sk ctv t2
        = [{ r2 with bookmarked := r1.bookmarked, is_read := r1.is_read }] := by
      rw [hfirst]
      simp only [Feed.upsertItem, Feed.upsertRow]
      rw [← hr2, if_neg (by rw [hconf]; exact Bool.false_ne_true), if_pos hany]
      simp [hids]
    refine ⟨{ r2 with bookmarked := r1.bookmarked, is_read := r1.is_read },
      hsecond, hr2id, f2, f3, f4, ?_, f7, ?_, ?_, ?_, g15, g16⟩
    · show Feed.pyOrOpt (Feed.fillType it2 ctv).description (Feed.fillType it2 ctv).abstract
        = Feed.pyOrOpt it2.description it2.abstract
      rw [f5, f6]
    · show (Feed.fillType it2 ctv).categories.getD [] = it2.categories.getD []
      rw [f12]
    · show (Feed.fillType it2 ctv).keywords.getD [] = it2.keywords.getD []
      rw [f13]
    · show (Feed.fillType it2 ctv).importance_score.getD 5 = it2.importance_score.getD 5
      rw [f14]

/-- Witness for C3 (amended) at a concrete input: the two same-id items of
the counterexample yield one row with the last title and the first flags. -/
theorem c3_upsert_idempotent_by_id_witness :
    ∃ r, Feed.upsertItem (Feed.upsertItem [] Feed.pairItemA "blog_posts" "blog" "t1")
          Feed.pairItemB "blog_posts" "blog" "t2" = [r] ∧
      r.title = some "B" ∧ r.bookmarked = true := by
  obtain ⟨r, heq, _, ht, _, _, _, _, _, _, _, hb, _⟩ :=
    c3_upsert_idempotent_by_id.2 Feed.pairItemA Feed.pairItemB
      "blog_posts" "blog" "t1" "t2" rfl
  exact ⟨r, heq, ht, hb⟩

/-- C9: `update_item_flags` with at least one supplied flag returns true
exactly when a row with the id exists (false, not an exception, when the id
is unknown), keeps the table length, leaves rows with other ids untouched,
and on the matching row sets only the supplied flags — an unsupplied flag
and every other column keep their stored values. -/
theorem c9_update_item_flags_correct (st : List Feed.Row) (item_id : String)
    (b ir : Option Bool) (hsome : ¬ (b = none ∧ ir = none)) :
    ((Feed.update_item_flags st item_id b ir).2 = true ↔
        ∃ r ∈ st, r.id = item_id) ∧
    (Feed.update_item_flags st item_id b ir).1.length = st.length ∧
    (∀ r ∈ st, r.id ≠ item_id →
        r ∈ (Feed.update_item_flags st item_id b ir).1) ∧
    (∀ r ∈ st, r.id = item_id →
      ∃ r2, r2 ∈ (Feed.update_item_flags st item_id b ir).1 ∧
        r2.bookmarked = b.getD r.bookmarked ∧ r2.is_read = ir.getD r.is_read ∧
        r2.id = r.id ∧ r2.title = r.title ∧ r2.url = r.url ∧
        r2.source = r.source ∧ r2.source_type = r.source_type ∧
        r2.content_type = r.content_type ∧ r2.description = r.description ∧
        r2.summary = r.summary ∧ r2.authors = r.authors ∧
        r2.published = r.published ∧ r2.thumbnail = r.thumbnail ∧
        r2.categories = r.categories ∧ r2.keywords = r.keywords ∧
        r2.importance_score = r.importance_score ∧ r2.channel = r.channel ∧
        r2.raw_data = r.raw_data ∧ r2.processed_at = r.processed_at ∧
        r2.last_fetched_at = r.last_fetched_at) := by
  unfold Feed.update_item_flags
  rw [if_neg hsome]
  refine ⟨?_, List.length_map _ _, ?_, ?_⟩
  · simp [List.any_eq_true]
  · intro r hr hne
    refine List.mem_map.mpr ⟨r, hr, ?_⟩
    simp [hne]
  · intro r hr heq
    refine ⟨_, List.mem_map.mpr ⟨r, hr, rfl⟩, ?_⟩
    rw [if_pos (by simp [heq])]
    exact ⟨rfl, rfl, rfl, rfl, rfl, rfl, rfl, rfl, rfl, rfl, rfl, rfl, rfl,
      rfl, rfl, rfl, rfl, rfl, rfl, rfl⟩

/-- Witness for C9 at a concrete input: bookmarking row "x1" in a two-row
table returns true, sets `bookmarked` without touching `is_read`, and
leaves row "y1" untouched; the same call on an unknown id returns false. -/
theorem c9_update_item_flags_witness :
    (Feed.update_item_flags [Feed.flagRowX, Feed.flagRowY] "x1"
        (some true) none).2 = true ∧
      Feed.flagRowY ∈ (Feed.update_item_flags [Feed.flagRowX, Feed.flagRowY] "x1"
        (some true) none).1 ∧
      (∃ r2, r2 ∈ (Feed.update_item_flags [Feed.flagRowX, Feed.flagRowY] "x1"
          (some true) none).1 ∧
        r2.bookmarked = true ∧ r2.is_read = true ∧ r2.title = some "X") ∧
      (Feed.update_item_flags [Feed.flagRowX, Feed.flagRowY] "missing"
        (some true) none).2 = false := by
  obtain ⟨hiff, hlen, hun, hup⟩ :=
    c9_update_item_flags_correct [Feed.flagRowX, Feed.flagRowY] "x1"
      (some true) none (by simp)
  obtain ⟨hiff2, _, _, _⟩ :=
    c9_update_item_flags_correct [Feed.flagRowX, Feed.flagRowY] "missing"
      (some true) none (by simp)
  refine ⟨hiff.mpr ⟨Feed.flagRowX, by simp, rfl⟩,
    hun Feed.flagRowY (by simp) (by decide), ?_, ?_⟩
  · obtain ⟨r2, hmem, hb, hir, _, ht, _⟩ := hup Feed.flagRowX (by simp) rfl
    exact ⟨r2, hmem, hb, hir, ht⟩
  · cases h2 : (Feed.update_item_flags [Feed.flagRowX, Feed.flagRowY] "missing"
        (some true) none).2
    · rfl
    · obtain ⟨r, hrmem, hrid⟩ := hiff2.mp h2
      simp at hrmem
      rcases hrmem with h | h <;> (subst h; simp [Feed.flagRowX, Feed.flagRowY] at hrid)

/-- C2: the code violates the watermark invariant.  Running the blog
collector over a feed with stored watermark E5 and fresh entries E7, E6
advances `last_item_id` to E7 inside collection itself — while the items
table is still untouched (the two collected posts have not been persisted;
`refresh_data` only inserts and commits them later).  A run that fails
after collection but before persistence therefore leaves the watermark at
E7, not at E5 as the claim requires. -/
theorem c2_watermark_advances_before_persistence :
    ((Feed.collect_company_blogs [Feed.watermarkFeed] 10 "t1"
        Feed.watermarkState).2.meta.map fun m => (m.source_id, m.last_item_id))
      = [("https://blog.example.com/rss", some "E7")] ∧
    (Feed.collect_company_blogs [Feed.watermarkFeed] 10 "t1"
        Feed.watermarkState).2.items = [] ∧
    ((Feed.collect_company_blogs [Feed.watermarkFeed] 10 "t1"
        Feed.watermarkState).1.map Feed.PItem.id) = ["E7", "E6"] := by
  decide

/-- C8 counterexample: one malformed article (null `source` object) between
two well-formed ones empties the WHOLE news batch — the collector returns
[] instead of skipping the bad item and keeping the two good ones, because
the only try/except wraps the whole source, not each item. -/
theorem c8_counterexample :
    Feed.collect_news_articles true
        (some { articles := [Feed.goodArticleOne, Feed.nullSourceArticle,
                             Feed.goodArticleTwo] }) = [] ∧
      Feed.articleOk (Feed.processArticle Feed.goodArticleOne) = true ∧
      Feed.articleOk (Feed.processArticle Feed.goodArticleTwo) = true ∧
      Feed.articleOk (Feed.processArticle Feed.nullSourceArticle) = false := by
  decide

/-- C8 (amended): failure containment in the collectors is per SOURCE, not
per item: when every article of the response processes cleanly the
collector returns them all, but a single failing article makes the
collector catch the exception at source level and return the empty list
for that source (other sources still run; the run is not aborted). -/
theorem c8_collector_source_granularity :
    (∀ arts : List Feed.RawArticle,
        (∀ a ∈ arts, Feed.articleOk (Feed.processArticle a) = true) →
        (Feed.collect_news_articles true (some { articles := arts })).length
          = arts.length) ∧
    (∀ arts : List Feed.RawArticle,
        (∃ a ∈ arts, Feed.articleOk (Feed.processArticle a) = false) →
        Feed.collect_news_articles true (some { articles := arts }) = []) := by
  constructor
  · intro arts h
    obtain ⟨xs, hxs, hlen⟩ := Feed.processArticles_all_ok arts h
    have hred : Feed.collect_news_articles true (some { articles := arts })
        = match Feed.processArticles arts with
          | .ok xs => xs
          | .error _ => [] := rfl
    rw [hred, hxs]
    exact hlen
  · intro arts h
    obtain ⟨e, he⟩ := Feed.processArticles_has_err arts h
    have hred : Feed.collect_news_articles true (some { articles := arts })
        = match Feed.processArticles arts with
          | .ok xs => xs
          | .error _ => [] := rfl
    rw [hred, he]

/-- Witness for C8 (amended) at concrete inputs: an all-good batch keeps
its length, a batch with the malformed article collapses to []. -/
theorem c8_collector_source_granularity_witness :
    (Feed.collect_news_articles true
        (some { articles := [Feed.goodArticleOne, Feed.goodArticleTwo] })).length
      = 2 ∧
    Feed.collect_news_articles true
        (some { articles := [Feed.goodArticleOne, Feed.nullSourceArticle] }) = [] :=
  ⟨c8_collector_source_granularity.1 [Feed.goodArticleOne, Feed.goodArticleTwo]
      (by decide),
   c8_collector_source_granularity.2 [Feed.goodArticleOne, Feed.nullSourceArticle]
      ⟨Feed.nullSourceArticle, by decide, by decide⟩⟩

/-- C7: for every stored state and every call, every item returned by
get_data_by_type has the requested content_type; whenever the filters
include a minimum importance score (a zero minimum is falsy in Python and
skips the clause, hence the nonzero proviso), every returned item meets it;
and the result is ordered by importance_score descending, then published
descending — all unconditionally in the store.  For the topics filter (OR
semantics through `categories LIKE '%"topic"%'` on the serialized
list), every returned item has one of the requested topics whenever the
requested topics contain no quote, LIKE wildcard, comma or bracket
characters, the stored category names contain no quote or backslash (true
of everything the pipeline stores: the fixed vocabulary, "Uncategorized",
and retained arXiv codes such as "cs.AI"), and no stored category differs
from a requested topic only by ASCII case (SQLite's LIKE is
case-insensitive, so such a pair would match without literal membership). -/
theorem c7_get_by_type_correct (st : List Feed.Row) (content_type : String)
    (limit offset : Nat) (f : Feed.Filters) :
    (∀ r ∈ Feed.get_data_by_type st content_type limit offset f,
      r.content_type = some content_type ∧
      (∀ v, f.min_importance = some v → v ≠ 0 → v ≤ r.importance_score) ∧
      (∀ ts, f.topics = some ts → ts ≠ [] →
        (∀ t ∈ ts, ∀ ch ∈ t.data,
          ch ≠ '"' ∧ ch ≠ '%' ∧ ch ≠ '_' ∧ ch ≠ ',' ∧ ch ≠ ']') →
        (∀ q ∈ st, ∀ c ∈ q.categories, ∀ ch ∈ c.data,
          ch ≠ '"' ∧ ch ≠ '\\') →
        (∀ t ∈ ts, ∀ q ∈ st, ∀ c ∈ q.categories,
          c.data.map Char.toLower = t.data.map Char.toLower → c = t) →
        ∃ t ∈ ts, t ∈ r.categories)) ∧
    List.Sorted Feed.rowOrd
      (Feed.get_data_by_type st content_type limit offset f) := by
  constructor
  · intro r hr
    have hr1 : r ∈ (st.filter
        (Feed.rowMatches content_type f)).insertionSort Feed.rowOrd :=
      List.mem_of_mem_drop (List.mem_of_mem_take hr)
    have hr2 : r ∈ st.filter (Feed.rowMatches content_type f) :=
      (List.perm_insertionSort Feed.rowOrd _).mem_iff.mp hr1
    obtain ⟨hrs, hmatch⟩ := List.mem_filter.mp hr2
    rw [Feed.rowMatches, Bool.and_eq_true, Bool.and_eq_true] at hmatch
    obtain ⟨⟨hct, hmi⟩, htp⟩ := hmatch
    refine ⟨eq_of_beq hct, ?_, ?_⟩
    · intro v hv hv0
      simp only [hv] at hmi
      rw [if_neg hv0] at hmi
      exact of_decide_eq_true hmi
    · intro ts hts hne hplainT hplainC hcase
      simp only [hts] at htp
      rw [if_neg (by simpa [List.isEmpty_iff] using hne)] at htp
      rw [List.any_eq_true] at htp
      obtain ⟨t, htmem, hlike⟩ := htp
      obtain ⟨cat, hcat, hle⟩ := Feed.topicMatch_mem t r.categories
        (hplainT t htmem)
        (fun c hc2 => hplainC r hrs c hc2) hlike
      have hce : cat = t := hcase t htmem r hrs cat hcat hle
      exact ⟨t, htmem, hce ▸ hcat⟩
  · have hsorted := List.sorted_insertionSort Feed.rowOrd
      (st.filter (Feed.rowMatches content_type f))
    exact List.Pairwise.sublist
      ((List.take_sublist _ _).trans (List.drop_sublist _ _)) hsorted

/-- Witness for C7 at a concrete store that contains the states the
pipeline itself produces — a row with the no-credential fallback category
["Uncategorized"] and a row that kept its arXiv codes ["cs.AI", "cs.LG"] —
filtered by importance at least 7 and topic "Research"; the inner
plainness and case-agreement premises are discharged by computation. -/
theorem c7_get_by_type_correct_witness :
    ∀ r ∈ Feed.get_data_by_type
        [Feed.paperRowLow, Feed.paperRowTop, Feed.newsRowOther,
         Feed.uncategorizedPaperRow, Feed.arxivCodesPaperRow, Feed.paperRowMid]
        "paper" 10 0 Feed.paperFilters,
      r.content_type = some "paper" ∧
      (∀ v, Feed.paperFilters.min_importance = some v → v ≠ 0 →
        v ≤ r.importance_score) ∧
      ∃ t ∈ ["Research"], t ∈ r.categories := by
  obtain ⟨h1, _⟩ := c7_get_by_type_correct
    [Feed.paperRowLow, Feed.paperRowTop, Feed.newsRowOther,
     Feed.uncategorizedPaperRow, Feed.arxivCodesPaperRow, Feed.paperRowMid]
    "paper" 10 0 Feed.paperFilters
  intro r hr
  obtain ⟨hc, hm, ht⟩ := h1 r hr
  exact ⟨hc, hm, ht ["Research"] rfl (by decide) (by decide) (by decide)
    (by decide)⟩
